import Mathlib

/-
Verification development for the pi-extensions repository, voice-to-text module
(src/voice-to-text/index.ts).  The TypeScript source is shallowly embedded:
pure functions become Lean functions, the stateful extension closure becomes an
explicit state type with transition functions, the filesystem / process / HTTP
transport become explicit parameters, and the JavaScript builtins JSON.parse /
JSON.stringify are modelled by an executable parser and serializer over an
inductive Json type.
-/

set_option maxRecDepth 4096

/- JavaScript string-or-undefined helpers.  `Option String` models a JS value
that is either a string or undefined; `jsTruthy` is JS truthiness for such a
value (undefined and the empty string are falsy); `jsOr` is the JS `??`
operator restricted to these values (it only tests for undefined). -/

def jsTruthy : Option String → Bool
  | none => false
  | some s => !(s == "")

def jsOr (a b : Option String) : Option String :=
  match a with
  | some s => some s
  | none => b

/- Substring test, modelling JavaScript String.prototype.includes. -/

def subListOf (needle : List Char) : List Char → Bool
  | [] => needle.isEmpty
  | c :: rest => needle.isPrefixOf (c :: rest) || subListOf needle rest

def strContains (hay needle : String) : Bool :=
  subListOf needle.toList hay.toList

/- Whitespace trim, modelling JavaScript String.prototype.trim (kept
executable by kernel reduction, unlike the library trim). -/
def jsTrim (s : String) : String :=
  String.mk (((s.toList.dropWhile Char.isWhitespace).reverse.dropWhile Char.isWhitespace).reverse)

/- An executable model of JSON values and of the JavaScript builtins
JSON.parse and JSON.stringify.  Numbers keep their source literal verbatim
(the module's code never inspects numeric values, so numeric canonicalization
is irrelevant to every claim); the parser is lenient about number syntax for
the same reason. -/

inductive Json where
  | null
  | bool (b : Bool)
  | num (lit : String)
  | str (s : String)
  | arr (xs : List Json)
  | obj (fields : List (String × Json))

def skipWs : List Char → List Char
  | [] => []
  | c :: rest =>
    if c == ' ' || c == '\t' || c == '\n' || c == '\r' then skipWs rest else c :: rest

def hexDigit? (c : Char) : Option Nat :=
  let n := c.toNat
  if 48 ≤ n && n ≤ 57 then some (n - 48)
  else if 97 ≤ n && n ≤ 102 then some (n - 87)
  else if 65 ≤ n && n ≤ 70 then some (n - 55)
  else none

def decEsc : Char → Option Char
  | 'n' => some (Char.ofNat 10)
  | 't' => some (Char.ofNat 9)
  | 'r' => some (Char.ofNat 13)
  | 'b' => some (Char.ofNat 8)
  | 'f' => some (Char.ofNat 12)
  | '"' => some '"'
  | '\\' => some '\\'
  | '/' => some '/'
  | _ => none

def parseStrA : List Char → List Char → Option (String × List Char)
  | _, [] => none
  | acc, '"' :: rest => some (String.mk acc, rest)
  | acc, '\\' :: rest =>
    match rest with
    | 'u' :: h1 :: h2 :: h3 :: h4 :: rest2 =>
      match hexDigit? h1, hexDigit? h2, hexDigit? h3, hexDigit? h4 with
      | some a, some b, some c, some d =>
        parseStrA (acc ++ [Char.ofNat (((a * 16 + b) * 16 + c) * 16 + d)]) rest2
      | _, _, _, _ => none
    | e :: rest2 =>
      match decEsc e with
      | some c2 => parseStrA (acc ++ [c2]) rest2
      | none => none
    | [] => none
  | acc, c :: rest => parseStrA (acc ++ [c]) rest

/- Object field update with JavaScript last-wins semantics: a repeated key
keeps its original position but takes the later value. -/
def objSet (fields : List (String × Json)) (k : String) (v : Json) : List (String × Json) :=
  match fields with
  | [] => [(k, v)]
  | (k0, v0) :: rest => if k0 == k then (k0, v) :: rest else (k0, v0) :: objSet rest k v

def numChar (c : Char) : Bool :=
  c.isDigit || c == '-' || c == '+' || c == '.' || c == 'e' || c == 'E'

mutual

def parseVal : Nat → List Char → Option (Json × List Char)
  | 0, _ => none
  | f + 1, cs =>
    match skipWs cs with
    | 'n' :: 'u' :: 'l' :: 'l' :: rest => some (Json.null, rest)
    | 't' :: 'r' :: 'u' :: 'e' :: rest => some (Json.bool true, rest)
    | 'f' :: 'a' :: 'l' :: 's' :: 'e' :: rest => some (Json.bool false, rest)
    | '"' :: rest =>
      match parseStrA [] rest with
      | some (s, rest2) => some (Json.str s, rest2)
      | none => none
    | '[' :: rest =>
      match skipWs rest with
      | ']' :: rest2 => some (Json.arr [], rest2)
      | cs2 => parseArrLoop f [] cs2
    | '\x7b' :: rest =>
      match skipWs rest with
      | '\x7d' :: rest2 => some (Json.obj [], rest2)
      | cs2 => parseObjLoop f [] cs2
    | c :: rest =>
      if c == '-' || c.isDigit then
        some (Json.num (String.mk (List.takeWhile numChar (c :: rest))),
              List.dropWhile numChar (c :: rest))
      else none
    | [] => none

def parseArrLoop : Nat → List Json → List Char → Option (Json × List Char)
  | 0, _, _ => none
  | f + 1, acc, cs =>
    match parseVal f cs with
    | none => none
    | some (v, rest) =>
      match skipWs rest with
      | ',' :: rest2 => parseArrLoop f (acc ++ [v]) rest2
      | ']' :: rest2 => some (Json.arr (acc ++ [v]), rest2)
      | _ => none

def parseObjLoop : Nat → List (String × Json) → List Char → Option (Json × List Char)
  | 0, _, _ => none
  | f + 1, acc, cs =>
    match skipWs cs with
    | '"' :: rest =>
      match parseStrA [] rest with
      | none => none
      | some (k, rest2) =>
        match skipWs rest2 with
        | ':' :: rest3 =>
          match parseVal f rest3 with
          | none => none
          | some (v, rest4) =>
            match skipWs rest4 with
            | ',' :: rest5 => parseObjLoop f (objSet acc k v) rest5
            | '\x7d' :: rest5 => some (Json.obj (objSet acc k v), rest5)
            | _ => none
        | _ => none
    | _ => none

end

/- Model of JSON.parse: parse one value, require only trailing whitespace, and
return none where JSON.parse would throw. -/
def jsonParse (s : String) : Option Json :=
  match parseVal (2 * (s.length + 1)) s.toList with
  | some (v, rest) => if (skipWs rest).isEmpty then some v else none
  | none => none

def escChar (c : Char) : String :=
  if c == '"' then ("\\\"")
  else if c == '\\' then ("\\\\")
  else if c == '\n' then ("\\n")
  else if c == '\r' then ("\\r")
  else if c == '\t' then ("\\t")
  else String.singleton c

def quoteStr (s : String) : String :=
  "\"" ++ String.join (s.toList.map escChar) ++ "\""

mutual

/- Model of compact JSON.stringify (no replacer, no indent). -/
def jsonStringify : Json → String
  | Json.null => "null"
  | Json.bool true => "true"
  | Json.bool false => "false"
  | Json.num lit => lit
  | Json.str s => quoteStr s
  | Json.arr xs => "[" ++ stringifyList xs ++ "]"
  | Json.obj fs => "\x7b" ++ stringifyFields fs ++ "\x7d"

def stringifyList : List Json → String
  | [] => ""
  | [x] => jsonStringify x
  | x :: y :: rest => jsonStringify x ++ "," ++ stringifyList (y :: rest)

def stringifyFields : List (String × Json) → String
  | [] => ""
  | [(k, v)] => quoteStr k ++ ":" ++ jsonStringify v
  | (k, v) :: kv :: rest => quoteStr k ++ ":" ++ jsonStringify v ++ "," ++ stringifyFields (kv :: rest)

end

/- JavaScript property read `value.field` for a non-null value: objects yield
the field when present, every other non-null value yields undefined.  Reading
a property of null throws a TypeError; call sites of this helper handle the
null case separately, matching how the source guards (or fails to guard) it. -/

def objLookup : List (String × Json) → String → Option Json
  | [], _ => none
  | (k0, v0) :: rest, k => if k0 == k then some v0 else objLookup rest k

def jsGet : Json → String → Option Json
  | Json.obj fs, k => objLookup fs k
  | _, _ => none

/- Truthiness of a JSON value, used for the `parsed?.model &&` test in
loadConfig.  Number truthiness is not modelled precisely for zero literals;
this is irrelevant there because the subsequent MODEL_OPTIONS.includes test
only ever accepts string values. -/
def jsonTruthy : Json → Bool
  | Json.null => false
  | Json.bool b => b
  | Json.str s => !(s == "")
  | Json.num _ => true
  | Json.arr _ => true
  | Json.obj _ => true

/- Configuration persistence (src/voice-to-text/index.ts, loadConfig and
saveConfig).  The filesystem at the configuration path is modelled by
FileState: the file is missing, unreadable (readFileSync throws), or holds a
string. -/

def MODEL_OPTIONS : List String := ["nvidia/parakeet-tdt-0.6b-v3", "openai/whisper-large-v3"]

def HOTKEY : String := "ctrl+shift+r"

def STATUS_KEY : String := "voice"

structure Config where
  model : Option String := none
deriving Repr, DecidableEq

inductive FileState where
  | missing
  | unreadable
  | content (raw : String)

def loadConfig : FileState → Config
  | FileState.missing => { model := none }
  | FileState.unreadable => { model := none }
  | FileState.content raw =>
    match jsonParse raw with
    | none => { model := none }
    | some parsed =>
      match jsGet parsed ("model") with
      | none => { model := none }
      | some mv =>
        if jsonTruthy mv then
          match mv with
          | Json.str m => if MODEL_OPTIONS.contains m then { model := some m } else { model := none }
          | _ => { model := none }
        else { model := none }

/- Content written by saveConfig, i.e. JSON.stringify(config, null, 2) on the
two shapes a Config value can take (a pretty-printed one-field object, or the
empty object when model is undefined, since JSON.stringify drops undefined
properties).  The try/catch around writeFileSync swallows write failures; the
round-trip claim is about the content of a successful write. -/
def saveConfigContent (c : Config) : String :=
  match c.model with
  | some m => "\x7b\n  \"model\": " ++ quoteStr m ++ "\n\x7d"
  | none => "\x7b\x7d"

/- Capture arguments (src/voice-to-text/index.ts, buildFfmpegArgs). -/
def buildFfmpegArgs (filePath : String) (input : String) : List String :=
  let outputArgs := ["-ac", "1", "-ar", "16000", "-c:a", "pcm_s16le", filePath]
  ["-y", "-f", "avfoundation", "-i", input] ++ outputArgs

/- File-ready waiter (src/voice-to-text/index.ts, waitForFile).  The
filesystem during polling is modelled by a function from elapsed milliseconds
to a Poll outcome: the file is missing (existsSync false), stat throws
(existsSync true but statSync raises, swallowed by the inner try/catch), or
stat reports a size.  Each loop iteration performs exactly one poll at the
current elapsed time, then sleeps 100 ms; sleeping is modelled as exact, so
polls happen at elapsed times 0, 100, 200, ...  The timeout is an Int because
a JS caller may pass a non-positive number. -/

inductive Poll where
  | missing
  | statErr
  | size (n : Nat)

def pollReady : Poll → Bool
  | Poll.size n => decide (0 < n)
  | _ => false

def waitForFileAux (fsm : Nat → Poll) (timeoutMs : Int) (elapsed : Nat) (polls : Nat) :
    Bool × Nat :=
  if h : (elapsed : Int) < timeoutMs then
    if pollReady (fsm elapsed) then (true, polls + 1)
    else waitForFileAux fsm timeoutMs (elapsed + 100) (polls + 1)
  else (false, polls)
termination_by (timeoutMs - (elapsed : Int)).toNat
decreasing_by
  omega

/- Result of the wait loop together with the number of polls it performed. -/
def waitForFileRun (fsm : Nat → Poll) (timeoutMs : Int) : Bool × Nat :=
  waitForFileAux fsm timeoutMs 0 0

def waitForFile (fsm : Nat → Poll) (timeoutMs : Int) : Bool :=
  (waitForFileRun fsm timeoutMs).1

/- Transcription client (src/voice-to-text/index.ts, transcribeFile).
The injected fetch transport is modelled by the response it would produce,
the process environment by Env, and the readFileSync of the audio file by an
Except value (error = the exception readFileSync would throw).  The outcome
records, besides the returned or thrown value, whether the file read was
attempted and how many times the transport was invoked, which is what the
no-I/O-before-credential-check claim is about.  The multipart form fields are
fixed data that never influence the returned text and are not modelled. -/

structure TranscribeParams where
  filePath : String
  model : String
  apiKey : Option String := none
  baseUrl : Option String := none

structure Env where
  veniceApiBase : Option String := none
  veniceApiKey : Option String := none

structure FetchResponse where
  ok : Bool
  status : Nat
  statusText : String
  contentType : Option String
  body : String

structure TranscribeOutcome where
  result : Except String String
  fileReadAttempted : Bool
  transportCalls : Nat
  requestUrl : Option String := none
deriving Repr

/- The field-selection logic applied to a successfully parsed non-null JSON
body: prefer a string-typed text field, then a string-typed transcription
field, else re-serialize the value. -/
def pickText (dat : Json) : String :=
  match jsGet dat ("text") with
  | some (Json.str t) => t
  | _ =>
    match jsGet dat ("transcription") with
    | some (Json.str t) => t
    | _ => jsonStringify dat

def transcribeFile (p : TranscribeParams) (env : Env) (fileRead : Except String Unit)
    (resp : FetchResponse) : TranscribeOutcome :=
  let apiKey := jsOr p.apiKey env.veniceApiKey
  let baseUrl := match p.baseUrl with
    | some b => b
    | none => env.veniceApiBase.getD ("https://api.venice.ai/api/v1")
  match apiKey with
  | none =>
    { result := Except.error ("VENICE_API_KEY is not set"),
      fileReadAttempted := false, transportCalls := 0 }
  | some k =>
    if k == "" || jsTrim k == "" then
      { result := Except.error ("VENICE_API_KEY is not set"),
        fileReadAttempted := false, transportCalls := 0 }
    else
      match fileRead with
      | Except.error e =>
        { result := Except.error e, fileReadAttempted := true, transportCalls := 0 }
      | Except.ok _ =>
        let url := baseUrl ++ ("/audio/transcriptions")
        if !resp.ok then
          { result := Except.error
              (toString resp.status ++ " " ++ resp.statusText ++ ": " ++ resp.body),
            fileReadAttempted := true, transportCalls := 1, requestUrl := some url }
        else
          let ctype := resp.contentType.getD ("")
          let out :=
            if strContains ctype ("application/json") then
              match jsonParse resp.body with
              | none => resp.body
              | some Json.null => resp.body
              | some dat => pickText dat
            else resp.body
          { result := Except.ok out, fileReadAttempted := true, transportCalls := 1,
            requestUrl := some url }

/- Orchestration (the closure state of the default export in
src/voice-to-text/index.ts).  Each handler runs to completion between
external triggers; its externally-determined inputs (the `which ffmpeg` exit
code, environment variables, UI answers, spawned process identity, temp
directory, clock, poll results, transport response) are passed explicitly.
UI interactions performed by a handler are collected in an effect list. -/

structure Session where
  procId : Nat
  filePath : String
  logPath : String
  input : String
  startedAt : Nat
deriving Repr, DecidableEq

structure OrchState where
  recording : Option Session := none
  transcribing : Bool := false
  ffmpegAvailable : Option Bool := none
  preferredInput : Option String := none
  preferredModel : String := "openai/whisper-large-v3"
deriving Repr, DecidableEq

inductive Eff where
  | notify (msg level : String)
  | setStatus (key value : String)
  | setEditorText (text : String)
  | saveConfigFile (content : String)
deriving Repr, DecidableEq

structure StartExt where
  whichCode : Int
  envInput : Option String
  uiAnswer : Option String
  procId : Nat
  dir : String
  now : Nat

def startRecording (st : OrchState) (hasUI : Bool) (x : StartExt) : OrchState × List Eff :=
  if st.recording.isSome || st.transcribing then (st, [])
  else
    let availEffs : Bool × List Eff :=
      match st.ffmpegAvailable with
      | some b => (b, [])
      | none =>
        let b := x.whichCode == 0
        (b, if b then [] else
          [Eff.notify ("ffmpeg not found. Install ffmpeg to enable voice capture.") ("error")])
    let avail := availEffs.1
    let st1 : OrchState := { st with ffmpegAvailable := some avail }
    if !avail then (st1, availEffs.2)
    else
      let inputOverride := x.envInput
      let input0 := jsOr inputOverride st.preferredInput
      let input1 :=
        if !(jsTruthy inputOverride) && !(jsTruthy input0) && hasUI then
          some (if jsTruthy x.uiAnswer then x.uiAnswer.getD ("") else (":0"))
        else input0
      let input : String := if jsTruthy input1 then input1.getD ("") else (":0")
      let filePath := x.dir ++ ("/recording.wav")
      let logPath := x.dir ++ ("/ffmpeg.log")
      let session : Session :=
        { procId := x.procId, filePath := filePath, logPath := logPath,
          input := input, startedAt := x.now }
      let st2 : OrchState := { st1 with recording := some session, preferredInput := some input }
      let effs : List Eff :=
        availEffs.2 ++
        [Eff.setStatus STATUS_KEY
            (("🎙 Recording... (") ++ st.preferredModel ++ (") (Ctrl+Shift+R to stop)")),
          Eff.notify (("Recording started (input: ") ++ input ++ (")")) ("info")] ++
        (if jsTruthy x.envInput then [] else
          [Eff.notify ("Tip: set PI_VOICE_INPUT to avoid the prompt next time") ("info")])
      (st2, effs)

/- The exit listener installed on the spawned process: when the process that
exits is still the current session's process, the session reference is
cleared and the status indicator reset. -/
def procExit (st : OrchState) (p : Nat) : OrchState × List Eff :=
  match st.recording with
  | some r =>
    if r.procId == p then ({ st with recording := none }, [Eff.setStatus STATUS_KEY ("")])
    else (st, [])
  | none => (st, [])

structure StopExt where
  exitCode : Option Int
  logRead : Option String
  fsm : Nat → Poll
  logRead2 : Option String
  fileRead : Except String Unit
  resp : FetchResponse
  env : Env

/- Net effect of stopRecording.  The transcribing flag is raised before the
file wait and lowered in the finally block inside this same handler, so the
handler's entry and exit states both carry transcribing = false; the
interleaving-sensitive guard behaviour is captured by quantifying theorems
over arbitrary states with transcribing = true. -/
def stopRecording (st : OrchState) (x : StopExt) : OrchState × List Eff :=
  if st.recording.isNone || st.transcribing then (st, [])
  else
    match st.recording with
    | none => (st, [])
    | some r =>
      let st1 : OrchState := { st with recording := none }
      let e0 : List Eff := [Eff.setStatus STATUS_KEY ("⏳ Processing audio...")]
      let e1 : List Eff :=
        match x.exitCode, x.logRead with
        | some c, some log =>
          if c != 0 && jsTrim log != "" then
            [Eff.notify (("ffmpeg error (input: ") ++ r.input ++ ("): ") ++ log) ("error")]
          else []
        | _, _ => []
      let ready := waitForFile x.fsm 5000
      if !ready then
        let logText := x.logRead2.getD ("")
        let hint := if logText != "" then (" ffmpeg log saved at ") ++ r.logPath else ("")
        ({ st1 with transcribing := false },
          e0 ++ e1 ++
          [Eff.notify
              (("Recording file was not created. Check mic permissions or input device.") ++ hint)
              ("error"),
            Eff.setStatus STATUS_KEY ("")])
      else
        let out := transcribeFile { filePath := r.filePath, model := st.preferredModel }
          x.env x.fileRead x.resp
        let e2 : List Eff :=
          match out.result with
          | Except.ok text =>
            if text != "" && jsTrim text != "" then
              [Eff.setEditorText (jsTrim text), Eff.notify ("Transcription loaded into editor") ("info")]
            else [Eff.notify ("Transcription was empty") ("warning")]
          | Except.error msg => [Eff.notify (("Transcription failed: ") ++ msg) ("error")]
        ({ st1 with transcribing := false }, e0 ++ e1 ++ e2 ++ [Eff.setStatus STATUS_KEY ("")])

/- The registered shortcut handler: in a non-interactive context it returns
silently; otherwise it toggles. -/
def shortcutHandler (st : OrchState) (hasUI : Bool) (sx : StartExt) (px : StopExt) :
    OrchState × List Eff :=
  if !hasUI then (st, [])
  else if st.recording.isSome then stopRecording st px
  else startRecording st hasUI sx

/- The leading-bullet strip applied to the selection answer, modelling the
regex replace of one leading bullet plus following whitespace. -/
def stripBullet (s : String) : String :=
  match s.toList with
  | c :: rest =>
    if c == '•' then String.mk (rest.dropWhile (fun ch => ch.isWhitespace)) else s
  | [] => s

structure CmdExt where
  args : Option String
  selectAnswer : Option String

/- The registered "voice" command handler: rejects non-interactive contexts
with a notification, handles the "model" sub-command (selection, persistence
via saveConfig, confirmation), and otherwise toggles. -/
def commandHandler (st : OrchState) (hasUI : Bool) (cx : CmdExt) (sx : StartExt) (px : StopExt) :
    OrchState × List Eff :=
  if !hasUI then (st, [Eff.notify ("voice requires interactive mode") ("error")])
  else
    let trimmed := jsTrim (cx.args.getD (""))
    if trimmed.toLower == ("model") then
      match cx.selectAnswer with
      | none => (st, [])
      | some selected =>
        if selected == "" then (st, [])
        else
          let normalized := stripBullet selected
          if MODEL_OPTIONS.contains normalized then
            ({ st with preferredModel := normalized },
              [Eff.saveConfigFile (saveConfigContent { model := some normalized }),
                Eff.notify (("Voice model set to ") ++ normalized) ("info")])
          else (st, [Eff.notify ("Invalid model selection") ("error")])
    else if st.recording.isSome then stopRecording st px
    else startRecording st hasUI sx

/-- C1: buildFfmpegArgs is a pure function of the output path and the
input-device identifier, returning exactly the ordered argument list
-y, -f, avfoundation, -i, device, -ac, 1, -ar, 16000, -c:a, pcm_s16le, path;
as a Lean function it is deterministic and stateless by construction. -/
theorem buildFfmpegArgs_spec (p d : String) :
    buildFfmpegArgs p d =
      ["-y", "-f", "avfoundation", "-i", d, "-ac", "1", "-ar", "16000", "-c:a", "pcm_s16le", p] :=
  rfl

/-- C2: whenever the effective API key (explicit parameter, else the
environment value) is absent or blank after trimming, transcribeFile fails
with the error naming VENICE_API_KEY, without attempting the audio-file read
and without invoking the injected transport. -/
theorem transcribeFile_missing_key (p : TranscribeParams) (env : Env)
    (fileRead : Except String Unit) (resp : FetchResponse)
    (h : jsOr p.apiKey env.veniceApiKey = none ∨
      ∃ k, jsOr p.apiKey env.veniceApiKey = some k ∧ jsTrim k = "") :
    transcribeFile p env fileRead resp =
      { result := Except.error ("VENICE_API_KEY is not set"),
        fileReadAttempted := false, transportCalls := 0 } := by
  rcases h with h | ⟨k, hk, ht⟩
  · simp [transcribeFile, h]
  · simp [transcribeFile, hk, ht]

/-- Witness for C2 at a concrete call with no key anywhere. -/
theorem transcribeFile_missing_key_witness :
    transcribeFile { filePath := "/tmp/a.wav", model := "openai/whisper-large-v3" } {}
      (Except.ok ())
      { ok := true, status := 200, statusText := "OK", contentType := none, body := "" } =
      { result := Except.error ("VENICE_API_KEY is not set"),
        fileReadAttempted := false, transportCalls := 0 } :=
  transcribeFile_missing_key _ _ _ _ (Or.inl rfl)

/-- C3: on a non-success transport response, transcribeFile fails with the
message formed from the status, a space, the status text, a colon-space, and
the body text, exactly. -/
theorem transcribeFile_http_error (p : TranscribeParams) (env : Env) (resp : FetchResponse)
    (k : String) (hk : jsOr p.apiKey env.veniceApiKey = some k) (hne : jsTrim k ≠ "")
    (hok : resp.ok = false) :
    (transcribeFile p env (Except.ok ()) resp).result =
      Except.error (toString resp.status ++ " " ++ resp.statusText ++ ": " ++ resp.body) := by
  have hk1 : (k == "") = false := by
    by_cases h : k = ""
    · subst h; exact absurd (by decide) hne
    · simp [h]
  have hk2 : (jsTrim k == "") = false := by simp [hne]
  simp [transcribeFile, hk, hk1, hk2, hok]

/-- Witness for C3: status 401, status text Unauthorized, body bad key. -/
theorem transcribeFile_http_error_witness :
    (transcribeFile
        { filePath := "/tmp/a.wav", model := "openai/whisper-large-v3", apiKey := some ("k1") } {}
        (Except.ok ())
        { ok := false, status := 401, statusText := "Unauthorized", contentType := none,
          body := "bad key" }).result =
      Except.error ("401 Unauthorized: bad key") := by
  have h := transcribeFile_http_error
    { filePath := "/tmp/a.wav", model := "openai/whisper-large-v3", apiKey := some ("k1") } {}
    { ok := false, status := 401, statusText := "Unauthorized", contentType := none,
      body := "bad key" }
    ("k1") rfl (by decide) rfl
  exact h.trans (congrArg Except.error (by decide))

/-- C10: with a non-positive timeout the wait loop's guard fails before the
first existence check, so waitForFile returns false having performed zero
polls, whatever the filesystem would have answered. -/
theorem waitForFile_nonpos_timeout (fsm : Nat → Poll) (t : Int) (h : t ≤ 0) :
    waitForFileRun fsm t = (false, 0) := by
  have hneg : ¬ (((0 : Nat) : Int) < t) := by omega
  unfold waitForFileRun waitForFileAux
  rw [dif_neg hneg]

/-- Witness for C10: timeout 0 on a filesystem where the file already exists
with non-zero size; no poll happens and the result is false. -/
theorem waitForFile_nonpos_timeout_witness :
    waitForFileRun (fun _ => Poll.size 7) 0 = (false, 0) :=
  waitForFile_nonpos_timeout (fun _ => Poll.size 7) 0 (by decide)

/- Characterization of the wait loop from an arbitrary poll index j: the loop
entered at elapsed time 100 * j answers true exactly when some later poll
time 100 * k strictly below the timeout sees a ready file. -/
theorem waitForFileAux_true_iff (fsm : Nat → Poll) (t : Int) :
    ∀ n j polls, (t - ((100 * j : Nat) : Int)).toNat ≤ n →
      ((waitForFileAux fsm t (100 * j) polls).1 = true ↔
        ∃ k : Nat, j ≤ k ∧ ((100 * k : Nat) : Int) < t ∧ pollReady (fsm (100 * k)) = true) := by
  intro n
  induction n with
  | zero =>
    intro j polls h
    have hc : ¬ (((100 * j : Nat) : Int) < t) := by omega
    unfold waitForFileAux
    rw [dif_neg hc]
    constructor
    · intro hf
      exact absurd hf (by simp)
    · rintro ⟨k, hk, hlt, _⟩
      exfalso
      omega
  | succ n ih =>
    intro j polls h
    unfold waitForFileAux
    by_cases hc : ((100 * j : Nat) : Int) < t
    · rw [dif_pos hc]
      by_cases hr : pollReady (fsm (100 * j)) = true
      · rw [if_pos hr]
        constructor
        · intro _
          exact ⟨j, Nat.le_refl j, hc, hr⟩
        · intro _
          rfl
      · rw [if_neg hr]
        have e1 : 100 * j + 100 = 100 * (j + 1) := by ring
        rw [e1]
        have h2 : (t - ((100 * (j + 1) : Nat) : Int)).toNat ≤ n := by
          push_cast at h hc ⊢
          omega
        rw [ih (j + 1) (polls + 1) h2]
        constructor
        · rintro ⟨k, hk, h1, h2⟩
          exact ⟨k, Nat.le_of_succ_le hk, h1, h2⟩
        · rintro ⟨k, hk, h1, h3⟩
          refine ⟨k, ?_, h1, h3⟩
          rcases Nat.eq_or_lt_of_le hk with heq | hlt
          · exfalso
            rw [← heq] at h3
            exact hr h3
          · exact hlt
    · rw [dif_neg hc]
      constructor
      · intro hf
        exact absurd hf (by simp)
      · rintro ⟨k, hk, hlt, _⟩
        exfalso
        omega

/-- C5: waitForFile polls at the fixed 100 ms interval and returns true
exactly when some poll at elapsed time 100 * k strictly before the timeout
sees the file existing with non-zero size; a missing file and a throwing
stat (Poll.statErr, the swallowed transient filesystem error) both count as
not ready, and the function is total, never propagating an exception. -/
theorem waitForFile_true_iff (fsm : Nat → Poll) (t : Int) :
    waitForFile fsm t = true ↔
      ∃ k : Nat, ((100 * k : Nat) : Int) < t ∧ pollReady (fsm (100 * k)) = true := by
  have h := waitForFileAux_true_iff fsm t (t.toNat) 0 0 (by omega)
  simp only [Nat.mul_zero] at h
  unfold waitForFile waitForFileRun
  rw [h]
  constructor
  · rintro ⟨k, _, h1, h2⟩
    exact ⟨k, h1, h2⟩
  · rintro ⟨k, h1, h2⟩
    exact ⟨k, Nat.zero_le k, h1, h2⟩

/-- Witness for C5: a file that becomes non-empty at 200 ms is reported true
within a 1000 ms timeout, through the main characterization applied at
poll index 2. -/
theorem waitForFile_true_iff_witness :
    waitForFile (fun ms => if ms < 200 then Poll.missing else Poll.size 5) 1000 = true :=
  (waitForFile_true_iff (fun ms => if ms < 200 then Poll.missing else Poll.size 5) 1000).mpr
    ⟨2, by decide, by decide⟩


/- Lemmas evaluating pickText under each hypothesis shape on the fields. -/

theorem pickText_text (dat : Json) (t : String) (h : jsGet dat ("text") = some (Json.str t)) :
    pickText dat = t := by
  unfold pickText
  split
  · rename_i t2 heq
    rw [h] at heq
    injection heq with h2
    injection h2 with h3
    exact h3.symm
  · rename_i hne2
    exact absurd h (hne2 t)

theorem pickText_transcription (dat : Json) (t : String)
    (hno : ∀ u, jsGet dat ("text") ≠ some (Json.str u))
    (h : jsGet dat ("transcription") = some (Json.str t)) :
    pickText dat = t := by
  unfold pickText
  split
  · rename_i t2 heq
    exact absurd heq (hno t2)
  · split
    · rename_i t2 heq
      rw [h] at heq
      injection heq with h2
      injection h2 with h3
      exact h3.symm
    · rename_i hne2
      exact absurd h (hne2 t)

theorem pickText_stringify (dat : Json)
    (hno : ∀ u, jsGet dat ("text") ≠ some (Json.str u))
    (hnotr : ∀ u, jsGet dat ("transcription") ≠ some (Json.str u)) :
    pickText dat = jsonStringify dat := by
  unfold pickText
  split
  · rename_i t2 heq
    exact absurd heq (hno t2)
  · split
    · rename_i t2 heq
      exact absurd heq (hnotr t2)
    · rfl

/- Shared helper: on a successful response (valid key, file read fine), the
returned text is exactly the body-handling expression from the source. -/
theorem transcribeFile_ok_result (p : TranscribeParams) (env : Env) (resp : FetchResponse)
    (k : String) (hk : jsOr p.apiKey env.veniceApiKey = some k) (hne : jsTrim k ≠ "")
    (hok : resp.ok = true) :
    (transcribeFile p env (Except.ok ()) resp).result = Except.ok
      (if strContains (resp.contentType.getD ("")) ("application/json") then
        match jsonParse resp.body with
        | none => resp.body
        | some Json.null => resp.body
        | some dat => pickText dat
      else resp.body) := by
  have hk1 : (k == "") = false := by
    by_cases h : k = ""
    · subst h
      exact absurd (by decide) hne
    · simp [h]
  have hk2 : (jsTrim k == "") = false := by simp [hne]
  simp [transcribeFile, hk, hk1, hk2, hok]

/-- C4 (amended): on a successful response whose content-type contains
application/json, the parsed body's string-typed text field is returned when
present, else its string-typed transcription field, else the re-serialized
JSON value — except that a body parsing to JSON null yields the raw body
text (the property read on null throws a TypeError that the surrounding
catch absorbs); a body that fails to parse, or a content-type without
application/json, also yields the raw body text. -/
theorem transcribeFile_success_body (p : TranscribeParams) (env : Env) (resp : FetchResponse)
    (k : String) (hk : jsOr p.apiKey env.veniceApiKey = some k) (hne : jsTrim k ≠ "")
    (hok : resp.ok = true) :
    (strContains (resp.contentType.getD ("")) ("application/json") = false →
      (transcribeFile p env (Except.ok ()) resp).result = Except.ok resp.body)
    ∧ (strContains (resp.contentType.getD ("")) ("application/json") = true →
        (jsonParse resp.body = none →
          (transcribeFile p env (Except.ok ()) resp).result = Except.ok resp.body)
        ∧ (jsonParse resp.body = some Json.null →
            (transcribeFile p env (Except.ok ()) resp).result = Except.ok resp.body)
        ∧ (∀ dat t, jsonParse resp.body = some dat →
            jsGet dat ("text") = some (Json.str t) →
            (transcribeFile p env (Except.ok ()) resp).result = Except.ok t)
        ∧ (∀ dat t, jsonParse resp.body = some dat →
            (∀ u, jsGet dat ("text") ≠ some (Json.str u)) →
            jsGet dat ("transcription") = some (Json.str t) →
            (transcribeFile p env (Except.ok ()) resp).result = Except.ok t)
        ∧ (∀ dat, jsonParse resp.body = some dat → dat ≠ Json.null →
            (∀ u, jsGet dat ("text") ≠ some (Json.str u)) →
            (∀ u, jsGet dat ("transcription") ≠ some (Json.str u)) →
            (transcribeFile p env (Except.ok ()) resp).result =
              Except.ok (jsonStringify dat))) := by
  have hbase := transcribeFile_ok_result p env resp k hk hne hok
  constructor
  · intro hct
    rw [hbase, if_neg (by simp [hct])]
  · intro hct
    refine ⟨?_, ?_, ?_, ?_, ?_⟩
    · intro hp
      rw [hbase, if_pos hct, hp]
    · intro hp
      rw [hbase, if_pos hct, hp]
    · intro dat t hp hget
      rw [hbase, if_pos hct, hp]
      have hdn : dat ≠ Json.null := by
        intro hd
        subst hd
        simp [jsGet] at hget
      cases dat with
      | null => exact absurd rfl hdn
      | bool b => exact congrArg Except.ok (pickText_text _ _ hget)
      | num lit => exact congrArg Except.ok (pickText_text _ _ hget)
      | str s => exact congrArg Except.ok (pickText_text _ _ hget)
      | arr xs => exact congrArg Except.ok (pickText_text _ _ hget)
      | obj fs => exact congrArg Except.ok (pickText_text _ _ hget)
    · intro dat t hp hno hget
      rw [hbase, if_pos hct, hp]
      have hdn : dat ≠ Json.null := by
        intro hd
        subst hd
        simp [jsGet] at hget
      cases dat with
      | null => exact absurd rfl hdn
      | bool b => exact congrArg Except.ok (pickText_transcription _ _ hno hget)
      | num lit => exact congrArg Except.ok (pickText_transcription _ _ hno hget)
      | str s => exact congrArg Except.ok (pickText_transcription _ _ hno hget)
      | arr xs => exact congrArg Except.ok (pickText_transcription _ _ hno hget)
      | obj fs => exact congrArg Except.ok (pickText_transcription _ _ hno hget)
    · intro dat hp hdn hno hnotr
      rw [hbase, if_pos hct, hp]
      cases dat with
      | null => exact absurd rfl hdn
      | bool b => exact congrArg Except.ok (pickText_stringify _ hno hnotr)
      | num lit => exact congrArg Except.ok (pickText_stringify _ hno hnotr)
      | str s => exact congrArg Except.ok (pickText_stringify _ hno hnotr)
      | arr xs => exact congrArg Except.ok (pickText_stringify _ hno hnotr)
      | obj fs => exact congrArg Except.ok (pickText_stringify _ hno hnotr)

/-- Witness for C4 at the concrete documented case: a JSON body with a
string text field is returned as that field's value. -/
theorem transcribeFile_success_body_witness :
    (transcribeFile
        { filePath := "/tmp/a.wav", model := "openai/whisper-large-v3", apiKey := some ("k1") } {}
        (Except.ok ())
        { ok := true, status := 200, statusText := "OK",
          contentType := some ("application/json"), body := "\x7b\"text\":\"hello\"\x7d" }).result
      = Except.ok ("hello") := by
  have h := transcribeFile_success_body
    { filePath := "/tmp/a.wav", model := "openai/whisper-large-v3", apiKey := some ("k1") } {}
    { ok := true, status := 200, statusText := "OK",
      contentType := some ("application/json"), body := "\x7b\"text\":\"hello\"\x7d" }
    ("k1") rfl (by decide) rfl
  exact (h.2 rfl).2.2.1 (Json.obj [(("text"), Json.str ("hello"))]) ("hello") rfl rfl

/-- Counterexample for C4 as stated: for a successful response with
content-type application/json and body a space followed by null, the body
parses as JSON (to null), no text or transcription field exists, so the
claim predicts the re-serialized value, the 4-character string null; the
code instead returns the raw 5-character body (the property read on null
throws and the catch returns the body). -/
theorem transcribeFile_null_body_cex :
    jsonParse (" null") = some Json.null
    ∧ jsonStringify Json.null = "null"
    ∧ (transcribeFile
        { filePath := "/tmp/a.wav", model := "openai/whisper-large-v3", apiKey := some ("k1") } {}
        (Except.ok ())
        { ok := true, status := 200, statusText := "OK",
          contentType := some ("application/json"), body := " null" }).result
      = Except.ok (" null")
    ∧ (" null" : String) ≠ ("null" : String) :=
  ⟨rfl, rfl, rfl, by decide⟩

/-- C7: loadConfig is total over every file state (it never throws): a
missing file, an unreadable file, and a body JSON.parse rejects all yield the
empty configuration, and on a parsed body the model field is returned
exactly when the JSON carries a string-typed model field equal to one of the
two recognized identifiers. -/
theorem loadConfig_spec :
    loadConfig FileState.missing = { model := none }
    ∧ loadConfig FileState.unreadable = { model := none }
    ∧ (∀ raw, jsonParse raw = none → loadConfig (FileState.content raw) = { model := none })
    ∧ (∀ raw j, jsonParse raw = some j → ∀ m,
        ((loadConfig (FileState.content raw)).model = some m ↔
          jsGet j ("model") = some (Json.str m) ∧ MODEL_OPTIONS.contains m = true)) := by
  refine ⟨rfl, rfl, ?_, ?_⟩
  · intro raw hp
    simp [loadConfig, hp]
  · intro raw j hp m
    simp only [loadConfig, hp]
    cases hg : jsGet j ("model") with
    | none => simp
    | some mv =>
      cases mv with
      | null => simp [jsonTruthy]
      | bool b =>
        cases b with
        | false => simp [jsonTruthy]
        | true => simp [jsonTruthy]
      | num lit => simp [jsonTruthy]
      | arr xs => simp [jsonTruthy]
      | obj fs2 => simp [jsonTruthy]
      | str s =>
        have hshow :
            (match some (Json.str s) with
              | none => ({ model := none } : Config)
              | some mv =>
                if jsonTruthy mv = true then
                  match mv with
                  | Json.str m =>
                    if MODEL_OPTIONS.contains m = true then { model := some m }
                    else { model := none }
                  | _ => { model := none }
                else { model := none }) =
            (if jsonTruthy (Json.str s) = true then
              (if MODEL_OPTIONS.contains s = true then ({ model := some s } : Config)
                else { model := none })
            else { model := none }) := rfl
        rw [hshow]
        by_cases hs : s = ""
        · subst hs
          rw [if_neg (by decide)]
          constructor
          · intro h2
            exact Option.noConfusion h2
          · rintro ⟨h3, h4⟩
            injection h3 with h5
            injection h5 with h6
            rw [← h6] at h4
            exact absurd h4 (by decide)
        · have hts : jsonTruthy (Json.str s) = true := by simp [jsonTruthy, hs]
          rw [if_pos hts]
          by_cases hc : MODEL_OPTIONS.contains s = true
          · rw [if_pos hc]
            constructor
            · intro h2
              injection h2 with h3
              subst h3
              exact ⟨rfl, hc⟩
            · rintro ⟨h3, _⟩
              injection h3 with h5
              injection h5 with h6
              rw [h6]
          · rw [if_neg hc]
            constructor
            · intro h2
              exact Option.noConfusion h2
            · rintro ⟨h3, h4⟩
              injection h3 with h5
              injection h5 with h6
              rw [h6] at hc
              exact absurd h4 hc

/-- Witness for C7: a file whose JSON carries a recognized model value loads
to exactly that model, through the characterization. -/
theorem loadConfig_spec_witness :
    (loadConfig (FileState.content ("\x7b\"model\": \"openai/whisper-large-v3\"\x7d"))).model
      = some ("openai/whisper-large-v3") :=
  ((loadConfig_spec).2.2.2 ("\x7b\"model\": \"openai/whisper-large-v3\"\x7d")
      (Json.obj [(("model"), Json.str ("openai/whisper-large-v3"))]) rfl
      ("openai/whisper-large-v3")).mpr ⟨rfl, by decide⟩

/-- C8: for each of the two recognized model identifiers, writing the
configuration with saveConfig (a pretty-printed JSON object) and loading the
written content with loadConfig returns exactly that model. -/
theorem saveConfig_loadConfig_roundtrip :
    (loadConfig (FileState.content
        (saveConfigContent { model := some ("nvidia/parakeet-tdt-0.6b-v3") }))).model
      = some ("nvidia/parakeet-tdt-0.6b-v3")
    ∧ (loadConfig (FileState.content
        (saveConfigContent { model := some ("openai/whisper-large-v3") }))).model
      = some ("openai/whisper-large-v3") :=
  ⟨rfl, rfl⟩

/-- C6: the orchestration keeps at most one session (the session slot holds
at most one value); invoking start while a session is active or while a
transcription is in flight returns the state unchanged with no effects; an
exit of the active session's process clears the session slot; and after such
an exit a start (with ffmpeg present and an input available) installs a new
session, so start is not permanently blocked. -/
theorem voice_single_session (st : OrchState) (hasUI : Bool) (sx : StartExt) (s : Session) :
    (∀ s1 s2, st.recording = some s1 → st.recording = some s2 → s1 = s2)
    ∧ (st.recording.isSome = true ∨ st.transcribing = true →
        startRecording st hasUI sx = (st, []))
    ∧ (st.recording = some s → (procExit st s.procId).1.recording = none)
    ∧ (st.recording = some s → st.transcribing = false →
        st.ffmpegAvailable ≠ some false → sx.whichCode = 0 →
        ((startRecording (procExit st s.procId).1 hasUI sx).1.recording).isSome = true) := by
  refine ⟨?_, ?_, ?_, ?_⟩
  · intro s1 s2 h1 h2
    rw [h1] at h2
    injection h2 with h3
  · intro h
    have hguard : (st.recording.isSome || st.transcribing) = true := by
      rcases h with h | h
      · simp [h]
      · simp [h]
    unfold startRecording
    rw [if_pos hguard]
  · intro h
    unfold procExit
    rw [h]
    simp
  · intro h1 h2 h3 h4
    have hpe : (procExit st s.procId).1 = { st with recording := none } := by
      unfold procExit
      rw [h1]
      simp
    rw [hpe]
    unfold startRecording
    have hguard : ((({ st with recording := none } : OrchState).recording.isSome
        || ({ st with recording := none } : OrchState).transcribing)) = false := by
      simp [h2]
    rw [if_neg (by simp [hguard, h2])]
    cases hffm : st.ffmpegAvailable with
    | none =>
      simp only [hffm, h4]
      rfl
    | some b =>
      cases b with
      | false => exact absurd hffm h3
      | true =>
        simp only [hffm]
        rfl

/- Concrete values for the orchestration witnesses. -/

def sessW : Session :=
  { procId := 7, filePath := "/tmp/pi-voice-x/recording.wav",
    logPath := "/tmp/pi-voice-x/ffmpeg.log", input := ":0", startedAt := 0 }

def stW : OrchState :=
  { recording := some sessW, transcribing := false, ffmpegAvailable := some true,
    preferredInput := some (":0"), preferredModel := "openai/whisper-large-v3" }

def sxW : StartExt :=
  { whichCode := 0, envInput := some (":0"), uiAnswer := none, procId := 8,
    dir := "/tmp/pi-voice-y", now := 5 }

/-- Witness for C6 at a concrete active-session state: start is a no-op, the
process exit clears the session, and a subsequent start installs a session
again. -/
theorem voice_single_session_witness :
    startRecording stW true sxW = (stW, [])
    ∧ (procExit stW sessW.procId).1.recording = none
    ∧ ((startRecording (procExit stW sessW.procId).1 true sxW).1.recording).isSome = true := by
  have h := voice_single_session stW true sxW sessW
  exact ⟨h.2.1 (Or.inl rfl), h.2.2.1 rfl, h.2.2.2 rfl rfl (by decide) rfl⟩

/- Concrete values for the non-interactive handler counterexample. -/

def ostN : OrchState := {}

def sxN : StartExt :=
  { whichCode := 0, envInput := none, uiAnswer := none, procId := 1,
    dir := "/tmp/pi-voice-z", now := 0 }

def pxN : StopExt :=
  { exitCode := none, logRead := none, fsm := fun _ => Poll.missing, logRead2 := none,
    fileRead := Except.ok (),
    resp := { ok := true, status := 200, statusText := "OK", contentType := none, body := "" },
    env := {} }

def cxN : CmdExt := { args := none, selectAnswer := none }

/-- Counterexample for C9 as stated: in a non-interactive context the
shortcut handler returns with an empty effect list — no user-visible message
at all — while the claim requires both the command and the shortcut to
reject with a message.  The state is also unchanged. -/
theorem shortcut_noninteractive_silent_cex :
    shortcutHandler ostN false sxN pxN = (ostN, [])
    ∧ ¬ ∃ m l, Eff.notify m l ∈ (shortcutHandler ostN false sxN pxN).2 := by
  refine ⟨rfl, ?_⟩
  rintro ⟨m, l, hm⟩
  have he : (shortcutHandler ostN false sxN pxN).2 = [] := rfl
  rw [he] at hm
  exact List.not_mem_nil _ hm

/-- C9 (amended): in a non-interactive context the voice command handler
rejects with the notification voice requires interactive mode at error
level and leaves the state unchanged, while the shortcut handler silently
ignores the invocation (no effects, state unchanged); in particular neither
starts nor stops a recording. -/
theorem toggle_noninteractive (st : OrchState) (cx : CmdExt) (sx : StartExt) (px : StopExt) :
    commandHandler st false cx sx px =
      (st, [Eff.notify ("voice requires interactive mode") ("error")])
    ∧ shortcutHandler st false sx px = (st, []) :=
  ⟨rfl, rfl⟩
